import Mathlib

/-!
A shallow embedding of the group host broker implemented in
src/wine-host/bridges/group.cpp (yabridge).  Pure fragments of the C++
are translated into Lean functions; stateful parts (the asio timers, the
plugin registry, the accept loop) are modelled as explicit state passing
and small step functions.  Times are natural numbers in milliseconds.
-/

/-- Constant event_loop_interval (group.cpp line 35): the C++ is
1000ms / 30; chrono integer division on the millisecond representation
yields 33 ms. -/
def event_loop_interval : Nat := 1000 / 30

/-- Constant minimum slack: the 5ms added to now in async_handle_events
(group.cpp line 244). -/
def min_wait : Nat := 5

/-- Constant idle-shutdown debounce: the 2s in shutdown_timer.expires_after
(group.cpp line 139), in milliseconds. -/
def shutdown_delay : Nat := 2000

/-- Deadline computation of async_handle_events (group.cpp lines 242-244):
events_timer.expires_at(std::max(events_timer.expiry() + event_loop_interval,
std::chrono::steady_clock::now() + 5ms)). -/
def next_deadline (prev now : Nat) : Nat :=
  max (prev + event_loop_interval) (now + min_wait)

/-- One line of the /proc/net/unix scan in create_acceptor_if_inactive
(group.cpp lines 318-329): lines shorter than the endpoint path are
skipped; otherwise the line's trailing substring of the path's length
(line.substr(line.size() - endpoint_path.size())) is compared with the
path. -/
def line_matches_endpoint (endpoint_path line : List Char) : Bool :=
  if line.length < endpoint_path.length then false
  else decide (line.drop (line.length - endpoint_path.length) = endpoint_path)

/-- The liveness probe of create_acceptor_if_inactive: the loop over the
lines of /proc/net/unix throws as soon as one line matches, so the probe
succeeds exactly when some line matches. -/
def endpoint_in_use (open_socket_lines : List (List Char))
    (endpoint_path : List Char) : Bool :=
  open_socket_lines.any (fun line => line_matches_endpoint endpoint_path line)

/-- Environment for one call of create_acceptor_if_inactive: the outcome of
the first bind attempt (acceptor id or error code), the lines of
/proc/net/unix at scan time, the outcome of a retry after removing the
stale file, and the endpoint path. -/
structure BindEnv where
  first_bind : Except Nat Nat
  open_socket_lines : List (List Char)
  retry_bind : Except Nat Nat
  endpoint_path : List Char

/-- Result of create_acceptor_if_inactive: the acceptor returned or the
exception propagated, together with whether the endpoint file was removed
(fs::remove on group.cpp line 332). -/
inductive AcceptorOutcome where
  | ok (acceptor : Nat) (removed_stale_file : Bool)
  | thrown (e : Nat) (removed_stale_file : Bool)
deriving DecidableEq

/-- Model of create_acceptor_if_inactive (group.cpp lines 305-336): try the
direct bind; on failure scan /proc/net/unix and re-throw the original
error if a live endpoint matches; otherwise remove the stale file and
retry the bind once, propagating whatever the retry does. -/
def create_acceptor_if_inactive (env : BindEnv) : AcceptorOutcome :=
  match env.first_bind with
  | Except.ok a => AcceptorOutcome.ok a false
  | Except.error e =>
    if endpoint_in_use env.open_socket_lines env.endpoint_path then
      AcceptorOutcome.thrown e false
    else
      match env.retry_bind with
      | Except.ok a => AcceptorOutcome.ok a true
      | Except.error e2 => AcceptorOutcome.thrown e2 true

theorem line_matches_endpoint_iff (p line : List Char) :
    line_matches_endpoint p line = true ↔ ∃ u, line = u ++ p := by
  constructor
  · intro hm
    unfold line_matches_endpoint at hm
    by_cases h : line.length < p.length
    · rw [if_pos h] at hm
      exact absurd hm (by simp)
    · rw [if_neg h, decide_eq_true_eq] at hm
      refine ⟨line.take (line.length - p.length), ?_⟩
      conv_lhs => rw [← List.take_append_drop (line.length - p.length) line]
      rw [hm]
  · rintro ⟨u, rfl⟩
    unfold line_matches_endpoint
    have h : ¬ (u ++ p).length < p.length := by
      simp only [List.length_append]
      omega
    rw [if_neg h, decide_eq_true_eq]
    have hlen : (u ++ p).length - p.length = u.length := by
      simp only [List.length_append]
      omega
    rw [hlen, List.drop_left]

theorem endpoint_in_use_iff (lines : List (List Char)) (p : List Char) :
    endpoint_in_use lines p = true ↔ ∃ line ∈ lines, ∃ u, line = u ++ p := by
  unfold endpoint_in_use
  rw [List.any_eq_true]
  constructor
  · rintro ⟨line, hmem, hm⟩
    exact ⟨line, hmem, (line_matches_endpoint_iff p line).mp hm⟩
  · rintro ⟨line, hmem, hu⟩
    exact ⟨line, hmem, (line_matches_endpoint_iff p line).mpr hu⟩

/-- C1: if the direct bind succeeds the acceptor is returned; if it fails
and the requested path shows up in the open local-socket listing, the
original error is re-thrown and the endpoint file is not removed;
otherwise the file is removed and the bind is retried exactly once, with
either outcome of the retry propagated to the caller. -/
theorem c1_bind_or_fail (env : BindEnv) :
    (∀ a, env.first_bind = Except.ok a →
      create_acceptor_if_inactive env = AcceptorOutcome.ok a false)
    ∧ (∀ e, env.first_bind = Except.error e →
      endpoint_in_use env.open_socket_lines env.endpoint_path = true →
      create_acceptor_if_inactive env = AcceptorOutcome.thrown e false)
    ∧ (∀ e, env.first_bind = Except.error e →
      endpoint_in_use env.open_socket_lines env.endpoint_path = false →
      (∀ a2, env.retry_bind = Except.ok a2 →
        create_acceptor_if_inactive env = AcceptorOutcome.ok a2 true)
      ∧ (∀ e2, env.retry_bind = Except.error e2 →
        create_acceptor_if_inactive env = AcceptorOutcome.thrown e2 true)) := by
  refine ⟨?_, ?_, ?_⟩
  · intro a h
    simp [create_acceptor_if_inactive, h]
  · intro e h hlive
    simp [create_acceptor_if_inactive, h, hlive]
  · intro e h hdead
    constructor
    · intro a2 h2
      simp [create_acceptor_if_inactive, h, hdead, h2]
    · intro e2 h2
      simp [create_acceptor_if_inactive, h, hdead, h2]

/-- Concrete environment: the first bind fails with error 13 while an open
socket with exactly the requested path exists. -/
def bind_env_live : BindEnv :=
  { first_bind := Except.error 13
  , open_socket_lines := [['0', ' ', '/', 't', '/', 'x']]
  , retry_bind := Except.ok 2
  , endpoint_path := ['/', 't', '/', 'x'] }

/-- Concrete environment: the first bind fails with error 13 and no open
socket matches, while the retry succeeds with acceptor 2. -/
def bind_env_stale : BindEnv :=
  { first_bind := Except.error 13
  , open_socket_lines := [['0', ' ', '/', 't', '/', 'y']]
  , retry_bind := Except.ok 2
  , endpoint_path := ['/', 't', '/', 'x'] }

theorem c1_bind_or_fail_witness :
    create_acceptor_if_inactive bind_env_live = AcceptorOutcome.thrown 13 false
    ∧ create_acceptor_if_inactive bind_env_stale = AcceptorOutcome.ok 2 true := by
  refine ⟨(c1_bind_or_fail bind_env_live).2.1 13 rfl (by decide), ?_⟩
  exact ((c1_bind_or_fail bind_env_stale).2.2 13 rfl (by decide)).1 2 rfl

/-- C10: the liveness probe judges the path owned by a live listener
exactly when some line of the open-sockets listing has length at least the
path's length and ends with exactly the characters of the path; in
particular an unrelated open socket whose path merely has the requested
path as a proper suffix counts as a live owner, so the original bind
failure is re-raised and the file is not reclaimed. -/
theorem c10_liveness_probe_suffix (lines : List (List Char)) (p : List Char) :
    (endpoint_in_use lines p = true ↔
      ∃ line ∈ lines, p.length ≤ line.length ∧ ∃ u, line = u ++ p)
    ∧ (∀ env e, env.first_bind = Except.error e →
      env.open_socket_lines = lines → env.endpoint_path = p →
      (∃ line ∈ lines, ∃ u, u ≠ [] ∧ line = u ++ p) →
      create_acceptor_if_inactive env = AcceptorOutcome.thrown e false) := by
  constructor
  · rw [endpoint_in_use_iff]
    constructor
    · rintro ⟨line, hmem, u, rfl⟩
      exact ⟨u ++ p, hmem, by simp [List.length_append], u, rfl⟩
    · rintro ⟨line, hmem, _, u, rfl⟩
      exact ⟨u ++ p, hmem, u, rfl⟩
  · rintro env e hb hlines hpath ⟨line, hmem, u, _, rfl⟩
    have hlive : endpoint_in_use env.open_socket_lines env.endpoint_path = true := by
      rw [hlines, hpath, endpoint_in_use_iff]
      exact ⟨u ++ p, hmem, u, rfl⟩
    simp [create_acceptor_if_inactive, hb, hlive]

theorem c10_liveness_probe_suffix_witness :
    (endpoint_in_use [['a', '/', 't', '/', 'x']] (['/', 't', '/', 'x']) = true ↔
      ∃ line ∈ [['a', '/', 't', '/', 'x']],
        (['/', 't', '/', 'x'] : List Char).length ≤ line.length
        ∧ ∃ u, line = u ++ ['/', 't', '/', 'x'])
    ∧ create_acceptor_if_inactive
        { first_bind := Except.error 7
        , open_socket_lines := [['a', '/', 't', '/', 'x']]
        , retry_bind := Except.ok 5
        , endpoint_path := ['/', 't', '/', 'x'] }
      = AcceptorOutcome.thrown 7 false := by
  refine ⟨(c10_liveness_probe_suffix [['a', '/', 't', '/', 'x']] ['/', 't', '/', 'x']).1, ?_⟩
  refine (c10_liveness_probe_suffix [['a', '/', 't', '/', 'x']] ['/', 't', '/', 'x']).2
    _ 7 rfl rfl rfl ?_
  exact ⟨['a', '/', 't', '/', 'x'], by simp, ['a'], by simp, rfl⟩

/-- C4: the next event-pump deadline is exactly
max (previous + fixed interval) (now + minimum slack), so the deadline
sequence is strictly increasing and each new deadline lies at least the
minimum slack after the current time. -/
theorem c4_event_pump_deadline (prev now : Nat) :
    next_deadline prev now = max (prev + event_loop_interval) (now + min_wait)
    ∧ prev < next_deadline prev now
    ∧ now + min_wait ≤ next_deadline prev now := by
  refine ⟨rfl, ?_, ?_⟩
  · have h : 0 < event_loop_interval := by decide
    exact Nat.lt_of_lt_of_le (Nat.lt_add_of_pos_right h)
      (Nat.le_max_left (prev + event_loop_interval) (now + min_wait))
  · exact Nat.le_max_right (prev + event_loop_interval) (now + min_wait)

/-- Modelled from the spec: the Connection Request identity tuple read in
the handshake (GroupRequest is declared in common/sockets.h, outside this
file); group.cpp uses its fields plugin_path and endpoint_base_dir and its
use as a map key. -/
structure GroupRequest where
  plugin_path : String
  endpoint_base_dir : String
deriving DecidableEq

/-- Observable events of one run of the async_accept completion handler in
accept_requests (group.cpp lines 181-237), in program order. -/
inductive AcceptEv where
  | log_accept_error
  | stop_context
  | read_request
  | write_response
  | construct_attempt
  | register_plugin
  | log_construct_error
  | rearm_accept
  | throw_out
  | assert_failure
deriving DecidableEq

/-- Environment of one accept-handler run: whether the accept operation
itself reported a failure, the outcome of read_object on the socket, and
the outcome of constructing the Vst2Bridge for a given request (an error
models a thrown std::runtime_error; the Nat is an opaque bridge handle). -/
structure AcceptEnv where
  accept_failed : Bool
  read_result : Except Nat GroupRequest
  construct_result : GroupRequest → Except String Nat

/-- Membership test on the registry, modelling
active_plugins.contains(request) (group.cpp line 206); the registry is an
association list from requests to bridge handles. -/
def registry_has (active : List (GroupRequest × Nat)) (k : GroupRequest) : Bool :=
  active.any (fun p => decide (p.1 = k))

/-- Model of the async_accept completion handler (group.cpp lines 183-236).
Note the error branch on lines 188-193 has no early return: after logging
and stopping the context the handler still falls through to
read_object.  read_object and write_object failures are modelled as a
thrown exception escaping the handler (the try block only covers the
Vst2Bridge construction); a failed assert aborts, so nothing follows it.
Returns the new registry and the trace of observable events. -/
def accept_handler (active : List (GroupRequest × Nat)) (env : AcceptEnv) :
    List (GroupRequest × Nat) × List AcceptEv :=
  let pre := if env.accept_failed
    then [AcceptEv.log_accept_error, AcceptEv.stop_context] else []
  match env.read_result with
  | Except.error _ => (active, pre ++ [AcceptEv.read_request, AcceptEv.throw_out])
  | Except.ok request =>
    let pre2 := pre ++ [AcceptEv.read_request, AcceptEv.write_response]
    if registry_has active request then
      (active, pre2 ++ [AcceptEv.assert_failure])
    else
      match env.construct_result request with
      | Except.ok bridge =>
        ((request, bridge) :: active,
          pre2 ++ [AcceptEv.construct_attempt, AcceptEv.register_plugin,
            AcceptEv.rearm_accept])
      | Except.error _ =>
        (active,
          pre2 ++ [AcceptEv.construct_attempt, AcceptEv.log_construct_error,
            AcceptEv.rearm_accept])

/-- Registry-mutating events of the broker: an accept-handler run, or the
removal posted back onto the IO context after a plugin's dispatch loop
returns (group.cpp lines 130-135). -/
inductive GroupEvent where
  | accept_conn (env : AcceptEnv)
  | plugin_exit (k : GroupRequest)

/-- One registry transition (map::erase removes the entry with the given
key; the accept handler may insert one absent key). -/
def group_step (active : List (GroupRequest × Nat)) :
    GroupEvent → List (GroupRequest × Nat)
  | GroupEvent.accept_conn env => (accept_handler active env).1
  | GroupEvent.plugin_exit k => active.filter (fun p => decide (p.1 ≠ k))

/-- Folding a sequence of connect/disconnect events over a registry. -/
def run_events : List GroupEvent → List (GroupRequest × Nat) → List (GroupRequest × Nat)
  | [], active => active
  | ev :: rest, active => run_events rest (group_step active ev)

theorem registry_has_eq_false_iff (active : List (GroupRequest × Nat))
    (k : GroupRequest) :
    registry_has active k = false ↔ k ∉ active.map Prod.fst := by
  unfold registry_has
  rw [← Bool.not_eq_true, List.any_eq_true]
  simp

theorem accept_handler_registry (active : List (GroupRequest × Nat))
    (env : AcceptEnv) :
    (accept_handler active env).1 = active
    ∨ ∃ r b, registry_has active r = false
        ∧ (accept_handler active env).1 = (r, b) :: active := by
  unfold accept_handler
  cases hr : env.read_result with
  | error e => left; rfl
  | ok request =>
    by_cases hc : registry_has active request
    · left; simp [hc]
    · cases hcon : env.construct_result request with
      | ok bridge =>
        right
        exact ⟨request, bridge, by simp [hc], by simp [hc, hcon]⟩
      | error msg => left; simp [hc, hcon]

theorem group_step_nodup (active : List (GroupRequest × Nat)) (ev : GroupEvent)
    (h : (active.map Prod.fst).Nodup) :
    ((group_step active ev).map Prod.fst).Nodup := by
  cases ev with
  | accept_conn env =>
    rcases accept_handler_registry active env with heq | ⟨r, b, habs, heq⟩
    · rw [group_step, heq]; exact h
    · rw [group_step, heq]
      rw [List.map_cons]
      exact List.Nodup.cons ((registry_has_eq_false_iff active r).mp habs) h
  | plugin_exit k =>
    rw [group_step]
    exact List.Nodup.sublist
      (List.Sublist.map Prod.fst (List.filter_sublist active)) h

theorem run_events_nodup (evs : List GroupEvent)
    (active : List (GroupRequest × Nat)) (h : (active.map Prod.fst).Nodup) :
    ((run_events evs active).map Prod.fst).Nodup := by
  induction evs generalizing active with
  | nil => exact h
  | cons ev rest ih =>
    rw [run_events]
    exact ih (group_step active ev) (group_step_nodup active ev h)

/-- C2: for every sequence of connect and disconnect events starting from
the empty registry, the registry never holds the same Connection Request
key twice at once; and when an accepted connection carries a key already
present, the handler hits the assertion (no insertion, no recovery, no
re-arm) instead of treating it as a recoverable error. -/
theorem c2_registry_no_duplicates :
    (∀ evs : List GroupEvent,
      ((run_events evs []).map Prod.fst).Nodup)
    ∧ (∀ (active : List (GroupRequest × Nat)) (env : AcceptEnv) (r : GroupRequest),
      env.read_result = Except.ok r →
      registry_has active r = true →
      (accept_handler active env).1 = active
      ∧ (accept_handler active env).2
        = (if env.accept_failed
            then [AcceptEv.log_accept_error, AcceptEv.stop_context] else [])
          ++ [AcceptEv.read_request, AcceptEv.write_response,
            AcceptEv.assert_failure]) := by
  constructor
  · intro evs
    exact run_events_nodup evs [] (by simp)
  · intro active env r hread hdup
    unfold accept_handler
    rw [hread]
    simp [hdup]

/-- A concrete duplicate request used to exercise the assertion branch. -/
def dup_request : GroupRequest :=
  { plugin_path := "a.dll", endpoint_base_dir := "d" }

theorem c2_registry_no_duplicates_witness :
    ((run_events [GroupEvent.plugin_exit dup_request] []).map Prod.fst).Nodup
    ∧ (accept_handler [(dup_request, 4)]
        { accept_failed := false
        , read_result := Except.ok dup_request
        , construct_result := fun _ => Except.ok 9 }).1 = [(dup_request, 4)] := by
  refine ⟨c2_registry_no_duplicates.1 [GroupEvent.plugin_exit dup_request], ?_⟩
  exact (c2_registry_no_duplicates.2 [(dup_request, 4)]
    { accept_failed := false
    , read_result := Except.ok dup_request
    , construct_result := fun _ => Except.ok 9 } dup_request rfl (by decide)).1

/-- C5: when the accept itself succeeded, the handshake was read, the key
is fresh and the Vst2Bridge construction throws a runtime_error, the
handler has already written the Connection Response before attempting
construction, logs the failure, registers nothing, re-arms the acceptor,
and a subsequent well-formed connection is then served and registered. -/
theorem c5_construction_failure (active : List (GroupRequest × Nat))
    (env : AcceptEnv) (r : GroupRequest) (msg : String) :
    env.accept_failed = false →
    env.read_result = Except.ok r →
    registry_has active r = false →
    env.construct_result r = Except.error msg →
    ((accept_handler active env).1 = active
    ∧ (accept_handler active env).2
      = [AcceptEv.read_request, AcceptEv.write_response,
        AcceptEv.construct_attempt, AcceptEv.log_construct_error,
        AcceptEv.rearm_accept]
    ∧ ∀ (env2 : AcceptEnv) (r2 : GroupRequest) (b2 : Nat),
        env2.accept_failed = false →
        env2.read_result = Except.ok r2 →
        registry_has active r2 = false →
        env2.construct_result r2 = Except.ok b2 →
        (accept_handler (accept_handler active env).1 env2).1
          = (r2, b2) :: active) := by
  intro hok hread habs hcon
  have h1 : (accept_handler active env).1 = active := by
    unfold accept_handler
    rw [hread]
    simp [habs, hcon]
  refine ⟨h1, ?_, ?_⟩
  · unfold accept_handler
    rw [hread]
    simp [hok, habs, hcon]
  · intro env2 r2 b2 hok2 hread2 habs2 hcon2
    rw [h1]
    unfold accept_handler
    rw [hread2]
    simp [habs2, hcon2]

/-- A request whose construction is made to fail in the C5 witness. -/
def bad_request : GroupRequest :=
  { plugin_path := "bad.dll", endpoint_base_dir := "d" }

/-- A request whose construction succeeds in the C5 witness. -/
def good_request : GroupRequest :=
  { plugin_path := "good.dll", endpoint_base_dir := "d" }

/-- Accept environment whose construction always throws. -/
def env_construct_fails : AcceptEnv :=
  { accept_failed := false
  , read_result := Except.ok bad_request
  , construct_result := fun _ => Except.error "could not load" }

/-- Accept environment for a successful follow-up connection. -/
def env_construct_ok : AcceptEnv :=
  { accept_failed := false
  , read_result := Except.ok good_request
  , construct_result := fun _ => Except.ok 7 }

theorem c5_construction_failure_witness :
    (accept_handler [] env_construct_fails).1 = []
    ∧ (accept_handler [] env_construct_fails).2
      = [AcceptEv.read_request, AcceptEv.write_response,
        AcceptEv.construct_attempt, AcceptEv.log_construct_error,
        AcceptEv.rearm_accept]
    ∧ (accept_handler (accept_handler [] env_construct_fails).1
        env_construct_ok).1 = [(good_request, 7)] := by
  have h := c5_construction_failure [] env_construct_fails bad_request
    "could not load" rfl rfl (by decide) rfl
  exact ⟨h.1, h.2.1, h.2.2 env_construct_ok good_request 7 rfl rfl (by decide) rfl⟩

/-- Accept environment for a failed accept operation: error.failed() holds
and the subsequent read on the unconnected socket fails. -/
def env_accept_failed : AcceptEnv :=
  { accept_failed := true
  , read_result := Except.error 9
  , construct_result := fun _ => Except.error "" }

/-- C6 at the failing input: the handler does log the error and stop the
event-processing context, but—because the error branch on group.cpp lines
188-193 has no return—it still falls through and attempts the handshake
read on the failed socket, contradicting the claim that no further
connection handling happens for a failed accept. -/
theorem c6_failed_accept_still_reads :
    (accept_handler [] env_accept_failed).2
      = [AcceptEv.log_accept_error, AcceptEv.stop_context,
        AcceptEv.read_request, AcceptEv.throw_out]
    ∧ AcceptEv.read_request ∈ (accept_handler [] env_accept_failed).2 := by
  constructor
  · rfl
  · decide

/-- State of the idle-shutdown machinery: the registry keys, the pending
shutdown_timer deadline (none when no wait is outstanding), and whether
plugin_context.stop() has been called. -/
structure ShutdownState where
  active : List GroupRequest
  deadline : Option Nat
  stopped : Bool
deriving DecidableEq

/-- Events driving the idle-shutdown machinery, each tagged with the
current time in milliseconds: a plugin's dispatch loop returning
(handle_plugin_dispatch, group.cpp lines 130-153: the posted erase plus
expires_after(2s) and a fresh async_wait), a new plugin connecting
(registration in the accept handler), and the timer firing. -/
inductive ShutdownEvent where
  | plugin_exit (k : GroupRequest) (t : Nat)
  | plugin_connect (k : GroupRequest) (t : Nat)
  | timer_fire (t : Nat)

/-- One transition of the idle-shutdown machinery.  expires_after cancels
any outstanding wait (its handler sees error.failed() and returns at
group.cpp lines 143-145, so the overwritten deadline has no effect); the
expiry handler at the armed deadline checks active_plugins.size() == 0
and stops the context (lines 147-152); a fire at any other time models a
canceled or absent wait and changes nothing. -/
def shutdown_step (s : ShutdownState) : ShutdownEvent → ShutdownState
  | ShutdownEvent.plugin_exit k t =>
    { s with active := s.active.filter (fun r => decide (r ≠ k))
           , deadline := some (t + shutdown_delay) }
  | ShutdownEvent.plugin_connect k _ => { s with active := k :: s.active }
  | ShutdownEvent.timer_fire t =>
    match s.deadline with
    | some d =>
      if t = d then
        { s with deadline := none
               , stopped := s.stopped || s.active.isEmpty }
      else s
    | none => s

/-- C3: every plugin exit re-arms the shutdown timer to fire exactly the
2-second debounce after the exit, overwriting (canceling) any pending
deadline; an uncanceled expiry stops the event-processing thread iff the
registry is empty at that moment; a plugin connecting during the window
leaves the pending shutdown without effect; a fire at any other time is a
canceled wait and does nothing; and once the armed deadline has fired the
timer cannot fire again. -/
theorem c3_idle_shutdown (s : ShutdownState) (k : GroupRequest) (t d : Nat) :
    ((shutdown_step s (ShutdownEvent.plugin_exit k t)).deadline
      = some (t + shutdown_delay))
    ∧ (s.deadline = some d → s.stopped = false →
      ((shutdown_step s (ShutdownEvent.timer_fire d)).stopped = true
        ↔ s.active = []))
    ∧ (s.deadline = some d →
      (shutdown_step (shutdown_step s (ShutdownEvent.plugin_connect k t))
        (ShutdownEvent.timer_fire d)).stopped = s.stopped)
    ∧ (s.deadline = some d → t ≠ d →
      shutdown_step s (ShutdownEvent.timer_fire t) = s)
    ∧ (s.deadline = some d →
      (shutdown_step s (ShutdownEvent.timer_fire d)).deadline = none
      ∧ ∀ t2, shutdown_step (shutdown_step s (ShutdownEvent.timer_fire d))
          (ShutdownEvent.timer_fire t2)
        = shutdown_step s (ShutdownEvent.timer_fire d)) := by
  refine ⟨rfl, ?_, ?_, ?_, ?_⟩
  · intro hd hstop
    simp only [shutdown_step, hd]
    simp [hstop, List.isEmpty_iff]
  · intro hd
    simp only [shutdown_step, hd]
    simp
  · intro hd hne
    simp only [shutdown_step, hd]
    simp [hne]
  · intro hd
    simp only [shutdown_step, hd]
    simp

theorem c3_idle_shutdown_witness :
    ((shutdown_step
        { active := [], deadline := some 100, stopped := false }
        (ShutdownEvent.plugin_exit dup_request 500)).deadline = some 2500)
    ∧ ((shutdown_step
        { active := [], deadline := some 100, stopped := false }
        (ShutdownEvent.timer_fire 100)).stopped = true ↔ ([] : List GroupRequest) = [])
    ∧ (shutdown_step (shutdown_step
        { active := [], deadline := some 100, stopped := false }
        (ShutdownEvent.plugin_connect dup_request 50))
        (ShutdownEvent.timer_fire 100)).stopped = false := by
  have h := c3_idle_shutdown
    { active := [], deadline := some 100, stopped := false } dup_request 500 100
  have h2 := c3_idle_shutdown
    { active := [], deadline := some 100, stopped := false } dup_request 50 100
  exact ⟨h.1, h.2.1 rfl rfl, h2.2.2.1 rfl⟩

/-- The per-plugin state the event pump reads: the result of the bridge's
should_skip_message_loop poll. -/
structure PluginSlot where
  skip_message_loop : Bool
deriving DecidableEq

/-- GroupBridge::should_skip_message_loop (group.cpp lines 165-179): walk
the registry and return true as soon as one bridge reports that the
message loop must be skipped. -/
def should_skip_message_loop : List (GroupRequest × PluginSlot) → Bool
  | [] => false
  | p :: rest =>
    if p.2.skip_message_loop then true else should_skip_message_loop rest

/-- Observable events of one activation of the events_timer handler in
async_handle_events (group.cpp lines 245-281), in program order. -/
inductive PumpEv where
  | x11_events (k : GroupRequest)
  | veto_check
  | win32_message (m : Nat)
deriving DecidableEq

/-- The bounded Win32 drain loop (group.cpp lines 272-277): up to cap
iterations, each PeekMessage(PM_REMOVE) popping the head of the pending
queue and the message being translated and dispatched; the loop stops
early when the queue is empty.  Returns the dispatched messages in order
and the remaining queue. -/
def drain_messages : Nat → List Nat → List Nat × List Nat
  | 0, pending => ([], pending)
  | _ + 1, [] => ([], [])
  | n + 1, m :: rest =>
    let r := drain_messages n rest
    (m :: r.1, r.2)

/-- One activation of the merged event pump (group.cpp lines 245-281):
handle_x11_events on every active plugin under the lock, then the
should_skip_message_loop veto, then—only when not vetoed—the bounded
Win32 drain.  Returns the event trace and the remaining message queue. -/
def pump_activation (cap : Nat) (active : List (GroupRequest × PluginSlot))
    (pending : List Nat) : List PumpEv × List Nat :=
  let x11 := active.map (fun p => PumpEv.x11_events p.1)
  if should_skip_message_loop active then
    (x11 ++ [PumpEv.veto_check], pending)
  else
    let r := drain_messages cap pending
    (x11 ++ [PumpEv.veto_check] ++ r.1.map PumpEv.win32_message, r.2)

/-- Recognizer for dispatched Win32 messages in a pump trace. -/
def is_win32 : PumpEv → Bool
  | PumpEv.win32_message _ => true
  | _ => false

theorem drain_messages_take_drop (cap : Nat) (pending : List Nat) :
    drain_messages cap pending = (pending.take cap, pending.drop cap) := by
  induction cap generalizing pending with
  | zero => rfl
  | succ n ih =>
    cases pending with
    | nil => rfl
    | cons m rest => simp [drain_messages, ih rest]

theorem drain_messages_length_le (cap : Nat) (pending : List Nat) :
    (drain_messages cap pending).1.length ≤ cap := by
  rw [drain_messages_take_drop]
  exact List.length_take_le cap pending

theorem filter_is_win32_x11 (l : List (GroupRequest × PluginSlot)) :
    (l.map (fun p => PumpEv.x11_events p.1)).filter is_win32 = [] := by
  induction l with
  | nil => rfl
  | cons p rest ih => simp [is_win32, ih]

theorem filter_is_win32_msgs (l : List Nat) :
    (l.map PumpEv.win32_message).filter is_win32 = l.map PumpEv.win32_message := by
  induction l with
  | nil => rfl
  | cons m rest ih => simp [is_win32, ih]

theorem pump_filter_win32 (cap : Nat)
    (active : List (GroupRequest × PluginSlot)) (pending : List Nat) :
    (pump_activation cap active pending).1.filter is_win32
      = if should_skip_message_loop active then []
        else (drain_messages cap pending).1.map PumpEv.win32_message := by
  by_cases h : should_skip_message_loop active
  · simp [pump_activation, h, List.filter_append, filter_is_win32_x11, is_win32]
  · simp [pump_activation, h, List.filter_append, filter_is_win32_x11,
      filter_is_win32_msgs, is_win32]

theorem pump_pending_after (cap : Nat)
    (active : List (GroupRequest × PluginSlot)) (pending : List Nat) :
    (pump_activation cap active pending).2
      = if should_skip_message_loop active then pending
        else pending.drop cap := by
  by_cases h : should_skip_message_loop active
  · simp [pump_activation, h]
  · simp [pump_activation, h, drain_messages_take_drop]

/-- C7: in each pump activation the trace consists of one secondary-event
servicing for every active plugin slot, followed by the global veto
computation, followed (only then) by the drained primary messages; so
every active slot is serviced unconditionally, and whenever any active
plugin requests suspension no primary message is dispatched during that
activation. -/
theorem c7_activation_order (cap : Nat)
    (active : List (GroupRequest × PluginSlot)) (pending : List Nat) :
    ((pump_activation cap active pending).1
      = active.map (fun p => PumpEv.x11_events p.1) ++ [PumpEv.veto_check]
        ++ (if should_skip_message_loop active then []
            else (drain_messages cap pending).1.map PumpEv.win32_message))
    ∧ (∀ k, k ∈ active.map Prod.fst →
      PumpEv.x11_events k ∈ (pump_activation cap active pending).1)
    ∧ (should_skip_message_loop active = true →
      ∀ m, PumpEv.win32_message m ∉ (pump_activation cap active pending).1) := by
  refine ⟨?_, ?_, ?_⟩
  · unfold pump_activation
    by_cases h : should_skip_message_loop active <;> simp [h]
  · intro k hk
    rw [List.mem_map] at hk
    rcases hk with ⟨p, hp, rfl⟩
    unfold pump_activation
    by_cases h : should_skip_message_loop active
    · rw [if_pos h]
      simp only [List.mem_append]
      exact Or.inl (List.mem_map_of_mem _ hp)
    · rw [if_neg h]
      simp only [List.mem_append]
      exact Or.inl (Or.inl (List.mem_map_of_mem _ hp))
  · intro h m
    unfold pump_activation
    simp [h]

theorem c7_activation_order_witness :
    ((pump_activation 3 [(dup_request, { skip_message_loop := true })] [1, 2]).1
      = [PumpEv.x11_events dup_request, PumpEv.veto_check])
    ∧ PumpEv.x11_events dup_request
        ∈ (pump_activation 3 [(dup_request, { skip_message_loop := true })] [1, 2]).1
    ∧ PumpEv.win32_message 1
        ∉ (pump_activation 3 [(dup_request, { skip_message_loop := true })] [1, 2]).1 := by
  have h := c7_activation_order 3 [(dup_request, { skip_message_loop := true })] [1, 2]
  refine ⟨?_, ?_, ?_⟩
  · rw [h.1]
    decide
  · exact h.2.1 dup_request (by decide)
  · exact h.2.2 (by decide) 1

/-- C8: one pump activation never dispatches more than the configured cap
of primary messages, however many are pending; and when the drain is not
vetoed and at least cap messages are pending, exactly cap are dispatched
and the rest stay queued for a later activation. -/
theorem c8_drain_bounded_by_cap (cap : Nat)
    (active : List (GroupRequest × PluginSlot)) (pending : List Nat) :
    (((pump_activation cap active pending).1.filter is_win32).length ≤ cap)
    ∧ (should_skip_message_loop active = false → cap ≤ pending.length →
      (((pump_activation cap active pending).1.filter is_win32).length = cap
      ∧ (pump_activation cap active pending).2.length = pending.length - cap)) := by
  have hf := pump_filter_win32 cap active pending
  constructor
  · rw [hf]
    by_cases h : should_skip_message_loop active
    · rw [if_pos h]
      simp
    · rw [if_neg h]
      rw [List.length_map]
      exact drain_messages_length_le cap pending
  · intro h hlen
    have hne : ¬ should_skip_message_loop active = true := by
      rw [h]
      simp
    constructor
    · rw [hf, if_neg hne, List.length_map, drain_messages_take_drop]
      simp only [List.length_take]
      exact Nat.min_eq_left hlen
    · rw [pump_pending_after, if_neg hne, List.length_drop]

theorem c8_drain_bounded_by_cap_witness :
    (((pump_activation 2 [] [5, 6, 7]).1.filter is_win32).length ≤ 2)
    ∧ ((pump_activation 2 [] [5, 6, 7]).1.filter is_win32).length = 2
    ∧ (pump_activation 2 [] [5, 6, 7]).2.length = 1 := by
  have h := c8_drain_bounded_by_cap 2 [] [5, 6, 7]
  have h2 := h.2 rfl (by decide)
  exact ⟨h.1, h2.1, h2.2⟩

/-- Stem extraction socket_path.filename().replace_extension() (group.cpp
lines 344-345): boost::filesystem strips the substring starting at the
last dot of the file name, except for the special names "." and "..". -/
def path_stem (name : List Char) : List Char :=
  if name = ['.'] ∨ name = ['.', '.'] then name
  else
    let k := List.findIdx (fun c => c == '.') name.reverse
    if k = name.length then name
    else name.take (name.length - k - 1)

/-- The literal part of the group socket naming pattern
(the regex on group.cpp line 348 starts with yabridge-group-). -/
def yabridge_group_tag : List Char :=
  ['y', 'a', 'b', 'r', 'i', 'd', 'g', 'e', '-', 'g', 'r', 'o', 'u', 'p', '-']

/-- The architecture disambiguation appended in 32-bit builds
(group.cpp line 357). -/
def x32_suffix : List Char := ['-', 'x', '3', '2']

/-- Splitting a string at every dash, keeping empty fields, so that the
dash-free fields are exactly what a [^-]+ atom of the pattern can match. -/
def split_on_dash : List Char → List (List Char)
  | [] => [[]]
  | c :: rest =>
    if c = '-' then [] :: split_on_dash rest
    else
      match split_on_dash rest with
      | [] => [[c]]
      | f :: fs => (c :: f) :: fs

/-- Inverse of split_on_dash: re-join fields with dashes. -/
def intercalate_dash : List (List Char) → List Char
  | [] => []
  | [f] => f
  | f :: fs => f ++ '-' :: intercalate_dash fs

/-- Strip a literal leading pattern, or fail. -/
def strip_leading : List Char → List Char → Option (List Char)
  | [], name => some name
  | _ :: _, [] => none
  | t :: ts, c :: cs => if t = c then strip_leading ts cs else none

/-- The anchored match of the regex on group.cpp line 348,
yabridge-group-(.*)-[^-]+-[^-]+ over the whole stem: after the literal
tag the remainder must decompose into a greedy group capture followed by
two final nonempty dash-free fields; the capture is everything up to the
second-to-last dash.  (The dot of the pattern matches any character
occurring here; socket file names contain no newline.) -/
def match_group_name (socket_name : List Char) : Option (List Char) :=
  match strip_leading yabridge_group_tag socket_name with
  | none => none
  | some rest =>
    match (split_on_dash rest).reverse with
    | b :: a :: gs =>
      if b ≠ [] ∧ a ≠ [] ∧ gs ≠ [] then some (intercalate_dash gs.reverse)
      else none
    | _ => none

/-- Model of create_logger_prefix (group.cpp lines 338-362) applied to the
endpoint's file name, parameterized by whether the broker was built for
the 32-bit ABI (the ifdef on line 353): strip the extension, extract the
group name through the naming pattern (appending the architecture tag in
32-bit builds on a match), fall back to the extension-stripped name, and
bracket the result. -/
def create_logger_prefix (is_i386 : Bool) (socket_file_name : List Char) :
    List Char :=
  let socket_name := path_stem socket_file_name
  match match_group_name socket_name with
  | some g => '[' :: (g ++ (if is_i386 then x32_suffix else [])) ++ [']', ' ']
  | none => '[' :: socket_name ++ [']', ' ']

theorem split_on_dash_ne_nil (l : List Char) : split_on_dash l ≠ [] := by
  cases l with
  | nil => simp [split_on_dash]
  | cons c rest =>
    by_cases h : c = '-'
    · simp [split_on_dash, h]
    · simp only [split_on_dash, if_neg h]
      cases split_on_dash rest <;> simp

theorem split_on_dash_cons_ne (c : Char) (rest : List Char) (h : ¬ c = '-')
    (f : List Char) (fs : List (List Char)) (hs : split_on_dash rest = f :: fs) :
    split_on_dash (c :: rest) = (c :: f) :: fs := by
  simp only [split_on_dash, if_neg h, hs]

theorem split_on_dash_cons_dash (rest : List Char) :
    split_on_dash ('-' :: rest) = [] :: split_on_dash rest := by
  simp [split_on_dash]

theorem split_on_dash_append (u v : List Char) :
    split_on_dash (u ++ '-' :: v) = split_on_dash u ++ split_on_dash v := by
  induction u with
  | nil => simp [split_on_dash]
  | cons c u ih =>
    by_cases h : c = '-'
    · subst h
      rw [List.cons_append, split_on_dash_cons_dash, split_on_dash_cons_dash,
        ih, List.cons_append]
    · rcases List.exists_cons_of_ne_nil (split_on_dash_ne_nil u) with ⟨f, fs, hu⟩
      have h1 : split_on_dash (c :: u) = (c :: f) :: fs :=
        split_on_dash_cons_ne c u h f fs hu
      have h2 : split_on_dash (u ++ '-' :: v)
          = f :: (fs ++ split_on_dash v) := by
        rw [ih, hu]
        rfl
      have h3 : split_on_dash (c :: (u ++ '-' :: v))
          = (c :: f) :: (fs ++ split_on_dash v) :=
        split_on_dash_cons_ne c (u ++ '-' :: v) h f (fs ++ split_on_dash v) h2
      rw [List.cons_append, h3, h1]
      rfl

theorem split_on_dash_no_dash (w : List Char) (h : ('-' : Char) ∉ w) :
    split_on_dash w = [w] := by
  induction w with
  | nil => rfl
  | cons c rest ih =>
    have hc : ¬ c = '-' := by
      intro hc
      exact h (by rw [hc]; exact List.mem_cons_self _ _)
    have hrest : ('-' : Char) ∉ rest := fun hm => h (List.mem_cons_of_mem c hm)
    exact split_on_dash_cons_ne c rest hc rest [] (ih hrest)

theorem intercalate_dash_cons_cons (c : Char) (f : List Char)
    (fs : List (List Char)) :
    intercalate_dash ((c :: f) :: fs) = c :: intercalate_dash (f :: fs) := by
  cases fs <;> simp [intercalate_dash]

theorem intercalate_split_on_dash (l : List Char) :
    intercalate_dash (split_on_dash l) = l := by
  induction l with
  | nil => rfl
  | cons c rest ih =>
    by_cases h : c = '-'
    · subst h
      rw [split_on_dash_cons_dash]
      rcases List.exists_cons_of_ne_nil (split_on_dash_ne_nil rest) with ⟨f, fs, hr⟩
      rw [hr]
      rw [show intercalate_dash ([] :: f :: fs)
        = '-' :: intercalate_dash (f :: fs) from rfl]
      rw [← hr, ih]
    · rcases List.exists_cons_of_ne_nil (split_on_dash_ne_nil rest) with ⟨f, fs, hr⟩
      rw [split_on_dash_cons_ne c rest h f fs hr, intercalate_dash_cons_cons,
        ← hr, ih]

theorem strip_leading_append (t r : List Char) :
    strip_leading t (t ++ r) = some r := by
  induction t with
  | nil => rfl
  | cons c ts ih => simp [strip_leading, ih]

theorem match_group_name_some (g a b : List Char)
    (ha : a ≠ []) (hb : b ≠ []) (hda : ('-' : Char) ∉ a)
    (hdb : ('-' : Char) ∉ b) :
    match_group_name (yabridge_group_tag ++ (g ++ '-' :: (a ++ '-' :: b)))
      = some g := by
  have hsplit : (split_on_dash (g ++ '-' :: (a ++ '-' :: b))).reverse
      = b :: a :: (split_on_dash g).reverse := by
    rw [split_on_dash_append, split_on_dash_append,
      split_on_dash_no_dash a hda, split_on_dash_no_dash b hdb]
    simp
  have hgs : (split_on_dash g).reverse ≠ [] := by
    simp [split_on_dash_ne_nil g]
  unfold match_group_name
  rw [strip_leading_append]
  show (match (split_on_dash (g ++ '-' :: (a ++ '-' :: b))).reverse with
    | b :: a :: gs =>
      if b ≠ [] ∧ a ≠ [] ∧ gs ≠ [] then some (intercalate_dash gs.reverse)
      else none
    | _ => none) = some g
  rw [hsplit]
  show (if b ≠ [] ∧ a ≠ [] ∧ (split_on_dash g).reverse ≠ []
      then some (intercalate_dash ((split_on_dash g).reverse.reverse))
      else none) = some g
  rw [if_pos ⟨hb, ha, hgs⟩, List.reverse_reverse, intercalate_split_on_dash]

/-- C9 (amended): the logger prefix is a pure function of the endpoint's
file name; when the extension-stripped file name matches the naming
pattern yabridge-group-<group_name>-<opaque_id>-<arch_tag>, the derived
prefix brackets exactly the extracted (greedy) group name, with the -x32
architecture disambiguation appended only in the 32-bit ABI build; when
the pattern does not match it falls back, without failing, to the
extension-stripped file name (not the raw file name). -/
theorem c9_logger_group_name (is_i386 : Bool) (name g a b : List Char) :
    ( path_stem name = yabridge_group_tag ++ (g ++ '-' :: (a ++ '-' :: b)) →
      a ≠ [] → b ≠ [] → ('-' : Char) ∉ a → ('-' : Char) ∉ b →
      create_logger_prefix is_i386 name
        = '[' :: (g ++ (if is_i386 then x32_suffix else [])) ++ [']', ' '])
    ∧ (match_group_name ( path_stem name) = none →
      create_logger_prefix is_i386 name
        = '[' :: path_stem name ++ [']', ' ']) := by
  constructor
  · intro hstem ha hb hda hdb
    unfold create_logger_prefix
    dsimp only
    rw [hstem, match_group_name_some g a b ha hb hda hdb]
  · intro hnone
    unfold create_logger_prefix
    dsimp only
    rw [hnone]

/-- The socket file name stale.sock as characters. -/
def stale_sock_name : List Char :=
  ['s', 't', 'a', 'l', 'e', '.', 's', 'o', 'c', 'k']

/-- C9 counterexample: for the non-matching socket file name stale.sock
the code derives the prefix from the extension-stripped name, producing a
bracketed stale rather than the raw file name stale.sock the claim
describes as the fallback. -/
theorem c9_logger_group_name_counterexample :
    create_logger_prefix false stale_sock_name
      = ['[', 's', 't', 'a', 'l', 'e', ']', ' ']
    ∧ create_logger_prefix false stale_sock_name
      ≠ '[' :: stale_sock_name ++ [']', ' '] := by
  constructor
  · decide
  · decide

/-- A group socket file name matching the naming pattern:
yabridge-group-my-group-1234-x86_64.sock. -/
def group_sock_name : List Char :=
  ['y', 'a', 'b', 'r', 'i', 'd', 'g', 'e', '-', 'g', 'r', 'o', 'u', 'p', '-',
   'm', 'y', '-', 'g', 'r', 'o', 'u', 'p', '-', '1', '2', '3', '4', '-',
   'x', '8', '6', '_', '6', '4', '.', 's', 'o', 'c', 'k']

theorem c9_logger_group_name_witness :
    create_logger_prefix true group_sock_name
      = '[' :: (['m', 'y', '-', 'g', 'r', 'o', 'u', 'p']
          ++ (if true then x32_suffix else [])) ++ [']', ' ']
    ∧ create_logger_prefix false stale_sock_name
      = '[' :: path_stem stale_sock_name ++ [']', ' '] := by
  constructor
  · exact (c9_logger_group_name true group_sock_name
      ['m', 'y', '-', 'g', 'r', 'o', 'u', 'p'] ['1', '2', '3', '4']
      ['x', '8', '6', '_', '6', '4']).1
      (by decide) (by decide) (by decide) (by decide) (by decide)
  · exact (c9_logger_group_name false stale_sock_name [] [] []).2 (by decide)
